import Mathlib

/-!
Verification of `src/gui/search/search_list_item_delegate.cpp` (Taiga).

The file shallowly embeds the delegate's two routines — `paint` and
`sizeHint`/`itemSize` — together with the toolkit primitives they use.
Machine integers are modelled as `Int` (the values involved never approach
the 32-bit range); C++ integer division truncates toward zero and is
modelled by `Int.tdiv`.  Font metrics are a parameter: a `FontMetricsModel`
assigns each font a line height and per-character advance, which is how the
claims about text layout are quantified over "every font".
-/

namespace Taiga

/-- Geometry: a Qt `QRect` stored as left/top/width/height.  `QRect.adjust`
adds its four arguments to x1, y1, x2, y2 respectively, which in this
representation moves the origin by the first two and changes the extents by
the differences. -/
structure QRect where
  x : Int
  y : Int
  w : Int
  h : Int
deriving DecidableEq, Repr

def QRect.setWidth (r : QRect) (wv : Int) : QRect := { r with w := wv }

def QRect.setHeight (r : QRect) (hv : Int) : QRect := { r with h := hv }

def QRect.adjust (r : QRect) (a b c d : Int) : QRect :=
  ⟨r.x + a, r.y + b, r.w + (c - a), r.h + (d - b)⟩

/-- A Qt `QSize`. -/
structure QSize where
  width : Int
  height : Int
deriving DecidableEq, Repr

/-- Lines 183–187: the responsive column count computed by
`SearchListItemDelegate::itemSize` from the host view's width.  The source
is a cascade of `if` statements overwriting `columns`, with
`maxWidth = 360`. -/
def columnsFor (wv : Int) : Int :=
  let maxWidth : Int := 360
  let columns : Int := 1
  let columns := if wv > maxWidth * 2 then 2 else columns
  let columns := if wv > maxWidth * 3 then 3 else columns
  let columns := if wv > maxWidth * 4 then 4 else columns
  columns

/-- Line 189: the `spacing` constant of `itemSize`. -/
def spacing : Int := 18

/-- Lines 179–194: `SearchListItemDelegate::itemSize`, as a function of the
parent list view's geometry width.  C++ `/` on `int` truncates toward zero,
hence `Int.tdiv`. -/
def itemSize (viewWidth : Int) : QSize :=
  ⟨(viewWidth - spacing * (columnsFor viewWidth + 2)).tdiv (columnsFor viewWidth), 210⟩

/-- Lines 165–169: `SearchListItemDelegate::sizeHint`.  A valid index gets
the computed item size; an invalid one falls back to the base-class
(`QStyledItemDelegate`) hint, modelled as a parameter of the embedding. -/
def sizeHint (viewWidth : Int) (indexValid : Bool) (baseHint : QSize) : QSize :=
  if indexValid then itemSize viewWidth else baseHint

/-- Fonts: the delegate only ever changes a font's weight (lines 89, 125,
136) and point size (line 154), so a font is modelled by those two fields.
Weights use Qt's numeric scale. -/
structure QFont where
  weight : Nat
  pointSize : Int
deriving DecidableEq, Repr

/-- Value of `QFont::Weight::Normal`. -/
def QFontWeightNormal : Nat := 400

/-- Value of `QFont::Weight::DemiBold`, the weight set on lines 89 and 125. -/
def QFontWeightDemiBold : Nat := 600

/-- Metrics of one font: the line height reported by
`QFontMetrics::height()` and a per-character horizontal advance from which
text widths are computed. -/
structure FontMetrics where
  height : Nat
  charWidth : Char → Nat

/-- A font-metrics model assigns metrics to every font; it stands for the
`QFontMetrics` constructor and is a parameter of the embedding, since the
claims quantify over every font environment. -/
def FontMetricsModel := QFont → FontMetrics

def textWidthL (m : FontMetrics) : List Char → Nat
  | [] => 0
  | c :: t => m.charWidth c + textWidthL m t

/-- Width of a string under a metrics, modelling
`QFontMetrics::boundingRect(...).width()` and the width used by
`QFontMetrics::elidedText`. -/
def textWidth (m : FontMetrics) (s : String) : Nat :=
  textWidthL m s.data

def ellipsisChar : Char := '…'

/-- Right elision on a reversed character list: keep the longest prefix of
the original text that fits together with the ellipsis; if not even the
ellipsis alone fits, return the empty text. -/
def elideCore (m : FontMetrics) (wv : Int) : List Char → List Char
  | [] => if (m.charWidth ellipsisChar : Int) ≤ wv then [ellipsisChar] else []
  | c :: t =>
    if (textWidthL m (c :: t).reverse + m.charWidth ellipsisChar : Int) ≤ wv then
      (c :: t).reverse ++ [ellipsisChar]
    else
      elideCore m wv t

/-- Models `QFontMetrics::elidedText(text, Qt::ElideRight, width)` (line
94): the text itself when it fits, otherwise the longest prefix followed by
an ellipsis that fits, otherwise empty. -/
def elidedText (m : FontMetrics) (s : String) (wv : Int) : String :=
  if (textWidth m s : Int) ≤ wv then s else ⟨elideCore m wv s.data.reverse⟩

/-- Whether the character list contains the place marker consisting of a
percent sign followed by the digit d. -/
def hasMarker (d : Char) : List Char → Bool
  | [] => false
  | [_] => false
  | c :: c2 :: t => (c == '%' && c2 == d) || hasMarker d (c2 :: t)

/-- Replace every occurrence of the place marker (percent sign followed by
the digit d) by rep, scanning left to right. -/
def repMarker (d : Char) (rep : List Char) : List Char → List Char
  | [] => []
  | [c] => [c]
  | c :: c2 :: t =>
    if c == '%' && c2 == d then rep ++ repMarker d rep t
    else c :: repMarker d rep (c2 :: t)

/-- Models `QString::arg` (line 103): find the lowest-numbered place marker
present in the string and replace all of its occurrences by the argument;
if no marker is present the string is returned unchanged.  Markers %1–%9
suffice for the format strings this file uses. -/
def qsArg (fmt rep : String) : String :=
  match ['1', '2', '3', '4', '5', '6', '7', '8', '9'].find?
      (fun d => hasMarker d fmt.data) with
  | none => fmt
  | some d => ⟨repMarker d rep.data fmt.data⟩

/-- Colors are identified by the palette role (or theme choice) they are
taken from; the delegate never constructs a color from components. -/
inductive Color where
  | highlight
  | mid
  | alternateBase
  | dark
  | placeholderText
  | other (id : Nat)
deriving DecidableEq, Repr

/-- An opaque decoded image; `m_pixmap` holds `some` image when the reader
succeeded and `none` for the default null pixmap. -/
structure Image where
  id : Nat
deriving DecidableEq, Repr

/-- The text flags the delegate passes to `QPainter::drawText`:
`Qt::AlignVCenter`, `Qt::TextSingleLine` (lines 96, 108), none (lines 134,
143), or `Qt::TextWordWrap` (line 161). -/
structure TextFlags where
  alignVCenter : Bool
  singleLine : Bool
  wordWrap : Bool
deriving DecidableEq, Repr

def singleLineFlags : TextFlags := ⟨true, true, false⟩

def noTextFlags : TextFlags := ⟨false, false, false⟩

def wordWrapFlags : TextFlags := ⟨false, false, true⟩

/-- One visible operation on the painter.  Text draws record the painter's
current font and pen, which is how Qt consumes that state. -/
inductive PaintCmd where
  | setClipRounded (r : QRect) (rx ry : Int)
  | fillRect (r : QRect) (c : Color)
  | drawPixmap (r : QRect) (pm : Option Image)
  | drawText (r : QRect) (flags : TextFlags) (s : String) (font : QFont) (pen : Color)
deriving DecidableEq, Repr

/-- The painter context that `QPainter::save`/`restore` preserve, as far as
this delegate touches it. -/
structure PainterContext where
  pen : Color
  font : QFont
  clip : Option (QRect × Int × Int)
deriving DecidableEq, Repr

/-- A `QPainter`: the current context, the stack of saved contexts, and the
log of visible operations performed so far. -/
structure Painter where
  pen : Color
  font : QFont
  clip : Option (QRect × Int × Int)
  saved : List PainterContext
  cmds : List PaintCmd

def Painter.save (p : Painter) : Painter :=
  { p with saved := ⟨p.pen, p.font, p.clip⟩ :: p.saved }

def Painter.restore (p : Painter) : Painter :=
  match p.saved with
  | [] => p
  | ctx :: t => { p with pen := ctx.pen, font := ctx.font, clip := ctx.clip, saved := t }

def Painter.setClipRounded (p : Painter) (r : QRect) (rx ry : Int) : Painter :=
  { p with clip := some (r, rx, ry), cmds := p.cmds ++ [.setClipRounded r rx ry] }

def Painter.fillRect (p : Painter) (r : QRect) (c : Color) : Painter :=
  { p with cmds := p.cmds ++ [.fillRect r c] }

def Painter.drawPixmap (p : Painter) (r : QRect) (pm : Option Image) : Painter :=
  { p with cmds := p.cmds ++ [.drawPixmap r pm] }

def Painter.setFont (p : Painter) (f : QFont) : Painter :=
  { p with font := f }

def Painter.setPen (p : Painter) (c : Color) : Painter :=
  { p with pen := c }

def Painter.drawText (p : Painter) (r : QRect) (flags : TextFlags) (s : String) : Painter :=
  { p with cmds := p.cmds ++ [.drawText r flags s p.font p.pen] }

/-- Modelled from the spec: the item record returned by
`SearchListModel::getAnime` ("title, episode count, score, synopsis, air
dates, genres, studios"); the record's own declaration is outside this
file's sources.  The title painted by the delegate comes from
`index.data(Qt::DisplayRole)` rather than from this record. -/
structure Anime where
  episode_count : Int
  score : Int
  synopsis : String
  aired : String
  genres : List String
  studios : List String

/-- Modelled from the spec: the list model exposes
`getAnime(index) → item record`.  Only the result at the painted index
matters, and `getAnime` returns a pointer that may in principle be null. -/
structure SearchListModel where
  getAnime : Option Anime

/-- The parts of `QStyleOptionViewItem` the delegate reads: the cell
rectangle and whether `QStyle::State_Selected` is set. -/
structure StyleOption where
  rect : QRect
  selected : Bool

/-- Lines 32–38: the constructor.  Reading `./data/poster.jpg` may fail
(`none`); only a successfully decoded image is stored, otherwise `m_pixmap`
keeps its default null value.  No failure is propagated. -/
def constructDelegate (readResult : Option Image) : Option Image :=
  match readResult with
  | some image => some image
  | none => none

/-- Lines 55–61 choose the background fill color from the selection state
and the theme. -/
def backgroundColor (selected isDark : Bool) : Color :=
  if selected then .highlight else if isDark then .mid else .alternateBase

/-- Lines 68–72 choose the poster panel fill color from the theme. -/
def posterColor (isDark : Bool) : Color :=
  if isDark then .dark else .mid

/-- Line 103: the summary format string. -/
def summaryFormat : String := "TV · %1 episodes · %2"

/-- Lines 116–119: the metadata label column text. -/
def detailsTitles : String := "Aired:\nGenres:\nStudios:"

/-- Lines 120–123: the metadata value column text. -/
def detailsValues : String :=
  "Jan 7, 2024 to Mar 31, 2024 (Airing)\nAction, Adventure, Fantasy\nA-1 Pictures"

/-- Lines 42–162: the body of `SearchListItemDelegate::paint` once the
model and item pointers have been dereferenced.  `fm` models the
`QFontMetrics` constructor, `isDark` the theme singleton, `m_pixmap` the
member set by the constructor, and `title` the string returned by
`index.data(Qt::DisplayRole)`.  The `PainterStateSaver` (modelled from the
spec: an RAII guard that saves the painter context on construction and
restores it on scope exit) brackets the body. -/
def paintBody (fm : FontMetricsModel) (isDark : Bool) (m_pixmap : Option Image)
    (opt : StyleOption) (title : String) (item : Anime) (painter : Painter) : Painter :=
  let p := painter.save
  let rect := opt.rect
  let p := p.setClipRounded rect 4 4
  let p := p.fillRect rect (backgroundColor opt.selected isDark)
  let posterRect := rect.setWidth 140
  let p := p.fillRect posterRect (posterColor isDark)
  let p := p.drawPixmap posterRect m_pixmap
  let rect := rect.adjust 140 0 0 0
  let font := p.font
  let titleRect := rect.setHeight 24
  let p := p.fillRect titleRect .dark
  let titleRect := titleRect.adjust 8 0 (-8) 0
  let titleFont := { p.font with weight := QFontWeightDemiBold }
  let p := p.setFont titleFont
  let elidedTitle := elidedText (fm p.font) title titleRect.w
  let p := p.drawText titleRect singleLineFlags elidedTitle
  let rect := rect.adjust 8 (24 + 8) (-8) (-8)
  let summary := qsArg (qsArg summaryFormat (Int.repr item.episode_count)) (Int.repr item.score)
  let metrics := fm p.font
  let summaryRect := rect.setHeight (metrics.height : Int)
  let p := p.setFont font
  let p := p.drawText summaryRect singleLineFlags summary
  let rect := rect.adjust 0 ((summaryRect.h : Int) + 8) 0 0
  let detailsFont := p.font
  let detailsFont := { detailsFont with weight := QFontWeightDemiBold }
  let p := p.setFont detailsFont
  let metrics := fm p.font
  let titlesRect := (rect.setHeight ((metrics.height : Int) * 3)).setWidth
    (textWidth metrics "Studios:" : Int)
  let p := p.drawText titlesRect noTextFlags detailsTitles
  let detailsFont := { detailsFont with weight := QFontWeightNormal }
  let p := p.setFont detailsFont
  let valuesRect := (rect.setHeight ((metrics.height : Int) * 3)).adjust (titlesRect.w + 8) 0 0 0
  let p := p.drawText valuesRect noTextFlags detailsValues
  let rect := rect.adjust 0 (titlesRect.h + 8) 0 0
  let synopsis := item.synopsis
  let p := p.setPen .placeholderText
  let detailsFont := { detailsFont with pointSize := 8 }
  let p := p.setFont detailsFont
  let metrics := fm p.font
  let synopsisRect := rect.setHeight (min rect.h ((metrics.height : Int) * 5))
  let p := p.drawText synopsisRect wordWrapFlags synopsis
  p.restore

/-- Lines 40–45: the entry of `paint`.  `index.model()` is downcast and
dereferenced without a null check, and `item` is dereferenced (first at
line 103) without a null check; a null in either place is a null-pointer
dereference, modelled as `none` (no completed paint).  Otherwise the body
runs to completion. -/
def paint (fm : FontMetricsModel) (isDark : Bool) (m_pixmap : Option Image)
    (opt : StyleOption) (modelPtr : Option SearchListModel) (title : String)
    (painter : Painter) : Option Painter :=
  match modelPtr with
  | none => none
  | some model =>
    match model.getAnime with
    | none => none
    | some item => some (paintBody fm isDark m_pixmap opt title item painter)

/-- A painter whose operation log is empty, with the given initial context
and save stack; paint-call claims are stated against this painter so that
command positions are absolute. -/
def mkPainter (pen : Color) (font : QFont) (clip : Option (QRect × Int × Int))
    (saved : List PainterContext) : Painter :=
  ⟨pen, font, clip, saved, []⟩

/-- The i-th logged command. -/
def cmdAt (p : Painter) (i : Nat) : Option PaintCmd :=
  p.cmds[i]?

/-- The rectangle of the i-th logged command when it is a text draw. -/
def textRectAt (p : Painter) (i : Nat) : Option QRect :=
  match p.cmds[i]? with
  | some (.drawText r _ _ _ _) => some r
  | _ => none

/-- The string of the i-th logged command when it is a text draw. -/
def textAt (p : Painter) (i : Nat) : Option String :=
  match p.cmds[i]? with
  | some (.drawText _ _ s _ _) => some s
  | _ => none

/-- The font of the i-th logged command when it is a text draw. -/
def textFontAt (p : Painter) (i : Nat) : Option QFont :=
  match p.cmds[i]? with
  | some (.drawText _ _ _ f _) => some f
  | _ => none

/-- The pen of the i-th logged command when it is a text draw. -/
def textPenAt (p : Painter) (i : Nat) : Option Color :=
  match p.cmds[i]? with
  | some (.drawText _ _ _ _ pen) => some pen
  | _ => none

/-- The flags of the i-th logged command when it is a text draw. -/
def textFlagsAt (p : Painter) (i : Nat) : Option TextFlags :=
  match p.cmds[i]? with
  | some (.drawText _ fl _ _ _) => some fl
  | _ => none


theorem digitChar_ne_percent : ∀ m, m < 10 → Nat.digitChar m ≠ '%' := by decide

theorem toDigitsCore_ne_percent (fuel n : Nat) (ds : List Char)
    (h : ∀ c ∈ ds, c ≠ '%') : ∀ c ∈ Nat.toDigitsCore 10 fuel n ds, c ≠ '%' := by
  induction fuel generalizing n ds with
  | zero => simpa [Nat.toDigitsCore] using h
  | succ f ih =>
    rw [Nat.toDigitsCore]
    have hd : ∀ c ∈ Nat.digitChar (n % 10) :: ds, c ≠ '%' := by
      intro c hc
      rcases List.mem_cons.mp hc with h1 | h2
      · subst h1; exact digitChar_ne_percent _ (Nat.mod_lt _ (by omega))
      · exact h c h2
    split
    · exact hd
    · exact ih _ _ hd

theorem natRepr_ne_percent (n : Nat) : ∀ c ∈ (Nat.repr n).data, c ≠ '%' :=
  toDigitsCore_ne_percent _ _ _ (by simp)

theorem intRepr_ne_percent (i : Int) : ∀ c ∈ (Int.repr i).data, c ≠ '%' := by
  cases i with
  | ofNat m => exact natRepr_ne_percent m
  | negSucc m =>
    show ∀ c ∈ ("-" ++ Nat.repr (m + 1)).data, c ≠ '%'
    rw [String.data_append]
    intro c hc
    rcases List.mem_append.mp hc with h1 | h2
    · simp at h1; subst h1; decide
    · exact natRepr_ne_percent _ c h2

theorem hasMarker_append_of_no_percent (d : Char) (a b : List Char)
    (h : ∀ c ∈ a, c ≠ '%') : hasMarker d (a ++ b) = hasMarker d b := by
  induction a with
  | nil => rfl
  | cons c t ih =>
    have hc : (c == '%') = false := by
      have := h c (List.mem_cons_self c t)
      simp [this]
    have ht : ∀ x ∈ t, x ≠ '%' := fun x hx => h x (List.mem_cons_of_mem _ hx)
    have key := ih ht
    cases t with
    | nil =>
      cases b with
      | nil => rfl
      | cons b0 bt =>
        show hasMarker d (c :: b0 :: bt) = hasMarker d (b0 :: bt)
        simp only [hasMarker, hc, Bool.false_and, Bool.false_or]
    | cons t0 tt =>
      simp only [List.cons_append] at key ⊢
      simp only [hasMarker, hc, Bool.false_and, Bool.false_or, key]

theorem repMarker_append_of_no_percent (d : Char) (rep a b : List Char)
    (h : ∀ c ∈ a, c ≠ '%') : repMarker d rep (a ++ b) = a ++ repMarker d rep b := by
  induction a with
  | nil => rfl
  | cons c t ih =>
    have hc : (c == '%') = false := by
      have := h c (List.mem_cons_self c t)
      simp [this]
    have ht : ∀ x ∈ t, x ≠ '%' := fun x hx => h x (List.mem_cons_of_mem _ hx)
    have key := ih ht
    cases t with
    | nil =>
      cases b with
      | nil => rfl
      | cons b0 bt =>
        show repMarker d rep (c :: b0 :: bt) = c :: repMarker d rep (b0 :: bt)
        simp only [repMarker, hc, Bool.false_and, Bool.false_eq_true, if_false]
    | cons t0 tt =>
      simp only [List.cons_append] at key ⊢
      simp only [repMarker, hc, Bool.false_and, Bool.false_eq_true, if_false, key]

theorem tv_ne_percent : ∀ c ∈ ("TV · " : String).data, c ≠ '%' := by decide

theorem find?_marker (fmt : String) (h1 : hasMarker '1' fmt.data = false)
    (h2 : hasMarker '2' fmt.data = true) :
    ['1', '2', '3', '4', '5', '6', '7', '8', '9'].find? (fun d => hasMarker d fmt.data) =
      some '2' := by
  simp only [List.find?, h1, h2]

theorem qsArg_first (r : String) :
    qsArg summaryFormat r = ⟨"TV · ".data ++ (r.data ++ " episodes · %2".data)⟩ := rfl

theorem qsArg_second (r1 r2 : String) (h1 : ∀ c ∈ r1.data, c ≠ '%') :
    qsArg ⟨"TV · ".data ++ (r1.data ++ " episodes · %2".data)⟩ r2 =
      ⟨("TV · ".data ++ r1.data) ++ (" episodes · ".data ++ (r2.data ++ []))⟩ := by
  have hA : ∀ c ∈ "TV · ".data ++ r1.data, c ≠ '%' := by
    intro c hc
    rcases List.mem_append.mp hc with h | h
    · exact tv_ne_percent c h
    · exact h1 c h
  have hdata : (⟨"TV · ".data ++ (r1.data ++ " episodes · %2".data)⟩ : String).data =
      ("TV · ".data ++ r1.data) ++ " episodes · %2".data := by
    show "TV · ".data ++ (r1.data ++ " episodes · %2".data) = _
    rw [List.append_assoc]
  have k1 : hasMarker '1'
      (⟨"TV · ".data ++ (r1.data ++ " episodes · %2".data)⟩ : String).data = false := by
    rw [hdata, hasMarker_append_of_no_percent _ _ _ hA]; decide
  have k2 : hasMarker '2'
      (⟨"TV · ".data ++ (r1.data ++ " episodes · %2".data)⟩ : String).data = true := by
    rw [hdata, hasMarker_append_of_no_percent _ _ _ hA]; decide
  rw [qsArg, find?_marker _ k1 k2]
  show (⟨repMarker '2' r2.data
    (⟨"TV · ".data ++ (r1.data ++ " episodes · %2".data)⟩ : String).data⟩ : String) = _
  rw [hdata, repMarker_append_of_no_percent _ _ _ _ hA]
  rfl

/-- The full summary computation equals plain interpolation. -/
theorem summary_eq (ec sc : Int) :
    qsArg (qsArg summaryFormat (Int.repr ec)) (Int.repr sc) =
      "TV · " ++ Int.repr ec ++ " episodes · " ++ Int.repr sc := by
  rw [qsArg_first, qsArg_second _ _ (intRepr_ne_percent ec)]
  apply congrArg String.mk
  show ("TV · ".data ++ (Int.repr ec).data) ++ (" episodes · ".data ++ ((Int.repr sc).data ++ [])) =
    ((("TV · " ++ Int.repr ec) ++ " episodes · ") ++ Int.repr sc).data
  simp [String.data_append, List.append_assoc]



theorem textWidthL_append (m : FontMetrics) (a b : List Char) :
    textWidthL m (a ++ b) = textWidthL m a + textWidthL m b := by
  induction a with
  | nil => simp [textWidthL]
  | cons c t ih => simp [textWidthL, ih]; omega

theorem elideCore_fits (m : FontMetrics) (wv : Int) (h : 0 ≤ wv) :
    ∀ l, (textWidthL m (elideCore m wv l) : Int) ≤ wv := by
  intro l
  induction l with
  | nil =>
    rw [elideCore]
    split
    · next hfit => simpa [textWidthL] using hfit
    · simpa [textWidthL] using h
  | cons c t ih =>
    rw [elideCore]
    split
    · next hfit =>
      rw [textWidthL_append]
      simp only [textWidthL] at hfit ⊢
      push_cast at hfit ⊢
      omega
    · exact ih

/-- When the available width is nonnegative, the elided text fits in it. -/
theorem elidedText_fits (m : FontMetrics) (s : String) (wv : Int) (h : 0 ≤ wv) :
    (textWidth m (elidedText m s wv) : Int) ≤ wv := by
  rw [elidedText]
  split
  · next hfit => exact hfit
  · exact elideCore_fits m wv h _


/-- The painter a paint call starts from, with an empty operation log so
that command positions in the claims are absolute. -/
def paintedCard (fm : FontMetricsModel) (isDark : Bool) (pm : Option Image)
    (opt : StyleOption) (title : String) (item : Anime) (pen0 : Color) (font0 : QFont)
    (clip0 : Option (QRect × Int × Int)) (saved0 : List PainterContext) : Painter :=
  paintBody fm isDark pm opt title item (mkPainter pen0 font0 clip0 saved0)

/-- A metrics model in which every character is one unit wide and every
line ten units tall. -/
def fmUnit : FontMetricsModel := fun _ => ⟨10, fun _ => 1⟩

/-- A metrics model whose capital G is far wider than any other character,
as a bold display font might have. -/
def fmWide : FontMetricsModel := fun _ => ⟨10, fun c => if c = 'G' then 100 else 1⟩

def sampleOpt : StyleOption := ⟨⟨0, 0, 1000, 400⟩, false⟩

def sampleAnime : Anime := ⟨12, 82, "A synopsis.", "2024", ["Action"], ["A-1 Pictures"]⟩

def samplePainter : Painter := mkPainter (.other 0) ⟨400, 12⟩ none []

/-- Claim C2: for every host-view width W the size hint computes a column
count between 1 and 4, crossing to 2, 3, 4 columns exactly when W exceeds
720, 1080, 1440 (multiples of 360), and returns height 210 and width
(W - 18*(columns+2)) / columns (C++ truncating division) with spacing
18px. -/
theorem C2_itemSize_columns (w : Int) :
    (1 ≤ columnsFor w ∧ columnsFor w ≤ 4)
    ∧ (720 < w ↔ 2 ≤ columnsFor w)
    ∧ (1080 < w ↔ 3 ≤ columnsFor w)
    ∧ (1440 < w ↔ 4 ≤ columnsFor w)
    ∧ itemSize w = ⟨(w - spacing * (columnsFor w + 2)).tdiv (columnsFor w), 210⟩ := by
  simp only [itemSize, columnsFor, spacing]
  split_ifs <;> exact ⟨⟨by omega, by omega⟩, by omega, by omega, by omega, trivial⟩

/-- Witness for C2 at width 1500: the theorem yields four columns. -/
theorem C2_witness : 4 ≤ columnsFor 1500 :=
  (C2_itemSize_columns 1500).2.2.2.1.mp (by decide)

/-- Claim C8: sizeHint returns the computed item size for a valid index and
the toolkit's default hint for an invalid one. -/
theorem C8_sizeHint_fallback (w : Int) (base : QSize) :
    sizeHint w true base = itemSize w ∧ sizeHint w false base = base :=
  ⟨rfl, rfl⟩

/-- Claim C9: whenever the view width W is at most 18*(columns+2) (for
columns = 1 that is any W at most 54) the computed item width is zero or
negative; at W = 0 it is exactly -54. -/
theorem C9_width_nonpositive :
    (∀ w : Int, w ≤ spacing * (columnsFor w + 2) → (itemSize w).width ≤ 0)
    ∧ (itemSize 0).width = -54 := by
  constructor
  · intro w hw
    simp only [itemSize, columnsFor, spacing] at hw ⊢
    split_ifs at hw ⊢ with h1 h2 h3
    · exfalso; omega
    · exfalso; omega
    · exfalso; omega
    · rw [Int.tdiv_one]; omega
  · decide

/-- Witness for C9 at width 0. -/
theorem C9_witness : (0 : Int) ≤ spacing * (columnsFor 0 + 2) ∧ (itemSize 0).width ≤ 0 :=
  ⟨by decide, C9_width_nonpositive.1 0 (by decide)⟩

/-- Claim C10: the painter context (pen, font, clip, saved stack) after a
completed paint call equals the context before it, because the
`PainterStateSaver` guard saves it on entry and restores it on exit, so no
modification leaks from painting one cell into painting another. -/
theorem C10_painter_state_restored (fm : FontMetricsModel) (isDark : Bool)
    (pm : Option Image) (opt : StyleOption) (title : String) (item : Anime) (p0 : Painter) :
    (paintBody fm isDark pm opt title item p0).pen = p0.pen
    ∧ (paintBody fm isDark pm opt title item p0).font = p0.font
    ∧ (paintBody fm isDark pm opt title item p0).clip = p0.clip
    ∧ (paintBody fm isDark pm opt title item p0).saved = p0.saved :=
  ⟨rfl, rfl, rfl, rfl⟩

/-- Claim C3: the metadata value lines painted in the details block are the
fixed strings "Jan 7, 2024 to Mar 31, 2024 (Airing)", "Action, Adventure,
Fantasy", "A-1 Pictures" for every item record, so two paints over any two
item records draw identical metadata-value text. -/
theorem C3_details_values_constant (fm : FontMetricsModel) (isDark : Bool)
    (pm : Option Image) (opt : StyleOption) (title : String) (item item' : Anime)
    (pen0 : Color) (font0 : QFont) (clip0 : Option (QRect × Int × Int))
    (saved0 : List PainterContext) :
    textAt (paintedCard fm isDark pm opt title item pen0 font0 clip0 saved0) 8 =
      some "Jan 7, 2024 to Mar 31, 2024 (Airing)\nAction, Adventure, Fantasy\nA-1 Pictures"
    ∧ textAt (paintedCard fm isDark pm opt title item pen0 font0 clip0 saved0) 8 =
      textAt (paintedCard fm isDark pm opt title item' pen0 font0 clip0 saved0) 8 :=
  ⟨rfl, rfl⟩

/-- Commands produced by a paint call with the wide-G metrics over concrete
inputs, used to test the label-column width against the widest label. -/
def C4card : Painter :=
  paintedCard fmWide false none sampleOpt "Title" sampleAnime (.other 0) ⟨400, 12⟩ none []

/-- Claim C4, counterexample: under a metrics where the G glyph is wide,
the painted label column's width (the width of "Studios:", 8 units) is not
the width of the widest of the three labels ("Genres:", 106 units): the
code hardcodes "Studios:" on line 132 instead of taking a maximum. -/
theorem C4_counterexample :
    (textRectAt C4card 7).map QRect.w ≠
      some ((max (textWidth (fmWide ⟨QFontWeightDemiBold, 12⟩) "Aired:")
        (max (textWidth (fmWide ⟨QFontWeightDemiBold, 12⟩) "Genres:")
          (textWidth (fmWide ⟨QFontWeightDemiBold, 12⟩) "Studios:")) : Nat) : Int) := by
  decide

/-- Claim C4 as amended: the metadata block has a fixed label column
containing "Aired:", "Genres:", "Studios:" whose width equals the width of
the label "Studios:" (not in general the widest), a value column offset by
that width plus an 8px gap, and both columns are three text lines tall. -/
theorem C4_details_two_columns (fm : FontMetricsModel) (isDark : Bool) (pm : Option Image)
    (opt : StyleOption) (title : String) (item : Anime) (pen0 : Color) (font0 : QFont)
    (clip0 : Option (QRect × Int × Int)) (saved0 : List PainterContext) :
    ∃ lr vr : QRect,
      textRectAt (paintedCard fm isDark pm opt title item pen0 font0 clip0 saved0) 7 = some lr
      ∧ textAt (paintedCard fm isDark pm opt title item pen0 font0 clip0 saved0) 7 =
          some detailsTitles
      ∧ textRectAt (paintedCard fm isDark pm opt title item pen0 font0 clip0 saved0) 8 = some vr
      ∧ lr.w = (textWidth (fm ⟨QFontWeightDemiBold, font0.pointSize⟩) "Studios:" : Int)
      ∧ vr.x = lr.x + lr.w + 8
      ∧ lr.h = ((fm ⟨QFontWeightDemiBold, font0.pointSize⟩).height : Int) * 3
      ∧ vr.h = ((fm ⟨QFontWeightDemiBold, font0.pointSize⟩).height : Int) * 3 := by
  refine ⟨_, _, rfl, rfl, rfl, rfl, ?_, rfl, rfl⟩
  dsimp only [paintedCard, paintBody, mkPainter, Painter.save, Painter.setClipRounded,
    Painter.fillRect, Painter.drawPixmap, Painter.setFont, Painter.setPen, Painter.drawText,
    Painter.restore, QRect.setWidth, QRect.setHeight, QRect.adjust, textRectAt]
  omega

/-- Claim C5: the title is drawn in a 24px-high bar with its own background
fill, in the demi-bold (heavier than normal) weight, right-elided to the
available title-bar width, and when that width is nonnegative the elided
string's text width fits within it. -/
theorem C5_title_bar (fm : FontMetricsModel) (isDark : Bool) (pm : Option Image)
    (opt : StyleOption) (title : String) (item : Anime) (pen0 : Color) (font0 : QFont)
    (clip0 : Option (QRect × Int × Int)) (saved0 : List PainterContext) :
    cmdAt (paintedCard fm isDark pm opt title item pen0 font0 clip0 saved0) 4 =
      some (.fillRect ⟨opt.rect.x + 140, opt.rect.y, opt.rect.w - 140, 24⟩ .dark)
    ∧ textFontAt (paintedCard fm isDark pm opt title item pen0 font0 clip0 saved0) 5 =
        some ⟨QFontWeightDemiBold, font0.pointSize⟩
    ∧ QFontWeightNormal < QFontWeightDemiBold
    ∧ textFlagsAt (paintedCard fm isDark pm opt title item pen0 font0 clip0 saved0) 5 =
        some singleLineFlags
    ∧ textAt (paintedCard fm isDark pm opt title item pen0 font0 clip0 saved0) 5 =
        some (elidedText (fm ⟨QFontWeightDemiBold, font0.pointSize⟩) title (opt.rect.w - 156))
    ∧ textRectAt (paintedCard fm isDark pm opt title item pen0 font0 clip0 saved0) 5 =
        some ⟨opt.rect.x + 148, opt.rect.y, opt.rect.w - 156, 24⟩
    ∧ (0 ≤ opt.rect.w - 156 →
        (textWidth (fm ⟨QFontWeightDemiBold, font0.pointSize⟩)
          (elidedText (fm ⟨QFontWeightDemiBold, font0.pointSize⟩) title
            (opt.rect.w - 156)) : Int) ≤ opt.rect.w - 156) := by
  refine ⟨?_, rfl, by decide, rfl, ?_, ?_, fun h => elidedText_fits _ _ _ h⟩
  · simp only [paintedCard, paintBody, mkPainter, Painter.save, Painter.setClipRounded,
      Painter.fillRect, Painter.drawPixmap, Painter.setFont, Painter.setPen, Painter.drawText,
      Painter.restore, QRect.setWidth, QRect.setHeight, QRect.adjust, cmdAt,
      List.append_assoc, List.nil_append, List.cons_append, List.singleton_append,
      List.getElem?_cons_succ, List.getElem?_cons_zero, Option.some.injEq,
      PaintCmd.fillRect.injEq, QRect.mk.injEq]
    repeat' apply And.intro
    all_goals first | trivial | omega
  · have harg : opt.rect.w + (0 - 140) + (-8 - 8) = opt.rect.w - 156 := by ring
    simp only [paintedCard, paintBody, mkPainter, Painter.save, Painter.setClipRounded,
      Painter.fillRect, Painter.drawPixmap, Painter.setFont, Painter.setPen, Painter.drawText,
      Painter.restore, QRect.setWidth, QRect.setHeight, QRect.adjust, textAt, harg,
      List.append_assoc, List.nil_append, List.cons_append, List.singleton_append,
      List.getElem?_cons_succ, List.getElem?_cons_zero]
  · simp only [paintedCard, paintBody, mkPainter, Painter.save, Painter.setClipRounded,
      Painter.fillRect, Painter.drawPixmap, Painter.setFont, Painter.setPen, Painter.drawText,
      Painter.restore, QRect.setWidth, QRect.setHeight, QRect.adjust, textRectAt,
      List.append_assoc, List.nil_append, List.cons_append, List.singleton_append,
      List.getElem?_cons_succ, List.getElem?_cons_zero, Option.some.injEq, QRect.mk.injEq]
    repeat' apply And.intro
    all_goals first | trivial | omega

/-- Claim C6: the synopsis is drawn word-wrapped, in the muted
placeholder-text pen and the small point-size-8 normal-weight font, into a
rectangle whose height is the minimum of the remaining cell height and five
times that font's line height, hence at most five line heights. -/
theorem C6_synopsis_clipped (fm : FontMetricsModel) (isDark : Bool) (pm : Option Image)
    (opt : StyleOption) (title : String) (item : Anime) (pen0 : Color) (font0 : QFont)
    (clip0 : Option (QRect × Int × Int)) (saved0 : List PainterContext) :
    ∃ sr : QRect,
      textRectAt (paintedCard fm isDark pm opt title item pen0 font0 clip0 saved0) 9 = some sr
      ∧ textAt (paintedCard fm isDark pm opt title item pen0 font0 clip0 saved0) 9 =
          some item.synopsis
      ∧ textFlagsAt (paintedCard fm isDark pm opt title item pen0 font0 clip0 saved0) 9 =
          some wordWrapFlags
      ∧ textPenAt (paintedCard fm isDark pm opt title item pen0 font0 clip0 saved0) 9 =
          some .placeholderText
      ∧ textFontAt (paintedCard fm isDark pm opt title item pen0 font0 clip0 saved0) 9 =
          some ⟨QFontWeightNormal, 8⟩
      ∧ sr.h = min
          (opt.rect.h - 56 - ((fm ⟨QFontWeightDemiBold, font0.pointSize⟩).height : Int) * 4)
          (((fm ⟨QFontWeightNormal, 8⟩).height : Int) * 5)
      ∧ sr.h ≤ ((fm ⟨QFontWeightNormal, 8⟩).height : Int) * 5 := by
  refine ⟨_, rfl, rfl, rfl, rfl, rfl, ?_, ?_⟩ <;>
    dsimp only [paintedCard, paintBody, mkPainter, Painter.save, Painter.setClipRounded,
      Painter.fillRect, Painter.drawPixmap, Painter.setFont, Painter.setPen, Painter.drawText,
      Painter.restore, QRect.setWidth, QRect.setHeight, QRect.adjust, textRectAt] <;>
    omega

/-- Claim C7: the one-line summary drawn below the title bar is exactly the
item's episode count and score interpolated into the format
"TV · %1 episodes · %2". -/
theorem C7_summary_interpolation (fm : FontMetricsModel) (isDark : Bool) (pm : Option Image)
    (opt : StyleOption) (title : String) (item : Anime) (pen0 : Color) (font0 : QFont)
    (clip0 : Option (QRect × Int × Int)) (saved0 : List PainterContext) :
    textAt (paintedCard fm isDark pm opt title item pen0 font0 clip0 saved0) 6 =
      some ("TV · " ++ Int.repr item.episode_count ++ " episodes · " ++ Int.repr item.score)
    ∧ ∃ sr : QRect,
        textRectAt (paintedCard fm isDark pm opt title item pen0 font0 clip0 saved0) 6 = some sr
        ∧ sr.y = opt.rect.y + 32 := by
  constructor
  · show some (qsArg (qsArg summaryFormat (Int.repr item.episode_count))
      (Int.repr item.score)) = _
    rw [summary_eq]
  · refine ⟨_, rfl, ?_⟩
    dsimp only [paintedCard, paintBody, mkPainter, Painter.save, Painter.setClipRounded,
      Painter.fillRect, Painter.drawPixmap, Painter.setFont, Painter.setPen, Painter.drawText,
      Painter.restore, QRect.setWidth, QRect.setHeight, QRect.adjust, textRectAt]
    omega

/-- Claim C1, counterexample: a paint call with a null model pointer does
not complete and paint an empty region; it aborts on the unchecked null
dereference of the model (modelled as no completed paint), refuting the
claim that a null model degrades to a visually empty region. -/
theorem C1_counterexample :
    paint fmUnit false (constructDelegate none) sampleOpt none "Title" samplePainter =
      none := rfl

/-- Claim C1 as amended: construction never raises an error and a missing
or unreadable poster image leaves the pixmap empty, so the poster draw
paints a null pixmap (a blank region); but paint dereferences the model and
the item without null checks, so it only completes - without raising any
error - when the model is non-null and its item record is non-null. -/
theorem C1_construction_silent_paint_total (fm : FontMetricsModel) (isDark : Bool)
    (opt : StyleOption) (model : SearchListModel) (title : String) (item : Anime)
    (pen0 : Color) (font0 : QFont) (clip0 : Option (QRect × Int × Int))
    (saved0 : List PainterContext) (h : model.getAnime = some item) :
    constructDelegate none = none
    ∧ cmdAt (paintedCard fm isDark (constructDelegate none) opt title item pen0 font0
        clip0 saved0) 3 = some (.drawPixmap ⟨opt.rect.x, opt.rect.y, 140, opt.rect.h⟩ none)
    ∧ paint fm isDark (constructDelegate none) opt (some model) title
        (mkPainter pen0 font0 clip0 saved0) =
      some (paintedCard fm isDark (constructDelegate none) opt title item pen0 font0
        clip0 saved0) := by
  refine ⟨rfl, rfl, ?_⟩
  simp [paint, h, paintedCard]

/-- Witness for C1: a concrete model holding a concrete item satisfies the
hypothesis, and the paint call completes. -/
theorem C1_witness :
    (SearchListModel.mk (some sampleAnime)).getAnime = some sampleAnime
    ∧ paint fmUnit false (constructDelegate none) sampleOpt
        (some (SearchListModel.mk (some sampleAnime))) "Title"
        (mkPainter (.other 0) ⟨400, 12⟩ none []) =
      some (paintedCard fmUnit false (constructDelegate none) sampleOpt "Title" sampleAnime
        (.other 0) ⟨400, 12⟩ none []) :=
  ⟨rfl, (C1_construction_silent_paint_total fmUnit false sampleOpt
    (SearchListModel.mk (some sampleAnime)) "Title" sampleAnime
    (.other 0) ⟨400, 12⟩ none [] rfl).2.2⟩

/-- Witness for C5 at a 1000px-wide cell with unit metrics: the available
title width is nonnegative and the elided title fits in it. -/
theorem C5_witness :
    (0 : Int) ≤ sampleOpt.rect.w - 156
    ∧ (textWidth (fmUnit ⟨QFontWeightDemiBold, 12⟩)
        (elidedText (fmUnit ⟨QFontWeightDemiBold, 12⟩) "Title"
          (sampleOpt.rect.w - 156)) : Int) ≤ sampleOpt.rect.w - 156 :=
  ⟨by decide, (C5_title_bar fmUnit false none sampleOpt "Title" sampleAnime
    (.other 0) ⟨400, 12⟩ none []).2.2.2.2.2.2 (by decide)⟩

end Taiga
